import Mathlib

/-!
Shallow embedding of `run.py`: a bank-statement categoriser.

The program has two components:
* `CategoryAssigner` (embedded as `from_json`, `get_category`, `get_name`):
  an ordered list of `(regex, name, category)` rules matched against a
  counterparty string with Python `re.match` (anchored at the start of the
  string, the pattern may match any prefix).
* `StatementData` (embedded as `parseStatement` and the report functions):
  loads a `;`-separated statement export, skipping 17 preamble lines, with
  pandas consuming the next line as the header row, projects columns
  0/4/15/18, normalises the transaction date and the decimal-comma amount,
  and assigns a category and a name to every row.

Modelling conventions:
* A Python regex pattern string is abstracted by the outcome of compiling
  it: either a `RegularExpression Char` giving its match semantics, or a
  marker that compilation raises `re.error`.  Python's `re` compiles
  lazily: `re.match(pattern, s)` raises on an invalid pattern at the call,
  which is why `re_match` is fallible while `from_json` is not.
* Machine floats (pandas `float64`) are modelled as `Rat`; every numeric
  literal in the claims is exactly representable.
* A statement file is a list of lines, each line already split at `;`
  into its list of fields.  A blank physical line splits into the single
  empty field `[""]`; `read_csv` keeps its default
  `skip_blank_lines=True`, so such lines are dropped after the preamble
  (they are neither the header nor a data row).
* pandas pads a short row with NaN, which makes the date-truncation step
  `x[:10]` raise `TypeError`; the model reports this as `formatError` when
  the row is projected, which is where the missing field is first needed.
* pandas applies each transformation column-wise; the model applies them
  row-wise.  Both abort on the first bad field, only the identity of the
  reported error on a file with several independent faults can differ.
-/

/-- Errors the Python runtime or its libraries can raise while the program
runs: `reError` for `re.error` (invalid pattern), `formatError` for the
load-time statement-format failures the spec groups under `FormatError`,
and `emptyDataError` for pandas `EmptyDataError`. -/
inductive PyErr where
  | reError
  | formatError
  | emptyDataError
deriving DecidableEq, Repr

/-- A Python regex pattern string, abstracted by the outcome of compiling
it: `compiled r` is a valid pattern whose anchored-match semantics is the
regular expression `r`; `malformed` is a pattern on which `re.compile`
raises `re.error`. -/
inductive PyRegex where
  | compiled : RegularExpression Char → PyRegex
  | malformed : PyRegex

/-- Whether the pattern compiles. -/
def PyRegex.isValid : PyRegex → Bool
  | .compiled _ => true
  | .malformed => false

/-- Model of Python `re.match(pattern, s)` viewed as a Boolean test (the
program only uses the truthiness of the result): the pattern is compiled at
the call (raising `re.error` if it is malformed) and matches iff it fully
matches some prefix of `s` starting at position 0. -/
def re_match (p : PyRegex) (s : String) : Except PyErr Bool :=
  match p with
  | .compiled r => .ok (s.toList.inits.any r.rmatch)
  | .malformed => .error .reError

/-- `CategoryAssigner.get_category`: scan the regex map in order and return
the category of the first rule whose regex matches the counterparty;
`"unknown category"` if none does.  A malformed pattern reached during the
scan raises `re.error` at this point. -/
def get_category (regex_map : List (PyRegex × String × String))
    (counterparty : String) : Except PyErr String :=
  match regex_map with
  | [] => .ok "unknown category"
  | (regex, _, category) :: rest =>
    match re_match regex counterparty with
    | .error e => .error e
    | .ok true => .ok category
    | .ok false => get_category rest counterparty

/-- `CategoryAssigner.get_name`: same scan as `get_category`, returning the
rule's name, with fallback `"unknown name"`. -/
def get_name (regex_map : List (PyRegex × String × String))
    (counterparty : String) : Except PyErr String :=
  match regex_map with
  | [] => .ok "unknown name"
  | (regex, name, _) :: rest =>
    match re_match regex counterparty with
    | .error e => .error e
    | .ok true => .ok name
    | .ok false => get_name rest counterparty

/-- One record of the rules JSON file: string fields `name`, `regex`,
`category` (the regex field abstracted by its compilation outcome). -/
structure RuleItem where
  name : String
  regex : PyRegex
  category : String

/-- `CategoryAssigner.from_json`: build the regex map from the decoded
JSON records, preserving file order.  The pattern strings are stored as
they are; nothing is compiled here. -/
def from_json (items : List RuleItem) : List (PyRegex × String × String) :=
  items.map (fun item => (item.regex, item.name, item.category))

/-- The first rule of the map whose regex matches the counterparty, if
any.  Specification-side description used to characterise the scan in
`get_category` and `get_name`. -/
def firstMatch (regex_map : List (PyRegex × String × String))
    (counterparty : String) : Option (PyRegex × String × String) :=
  regex_map.find? (fun rule =>
    match re_match rule.1 counterparty with
    | .ok b => b
    | .error _ => false)

/-- A calendar date, the model of a pandas `Timestamp` at day precision. -/
structure Date where
  year : Nat
  month : Nat
  day : Nat
deriving DecidableEq, Repr

/-- Numeric value of a list of decimal digit characters. -/
def digitsToNat (l : List Char) : Nat :=
  l.foldl (fun n c => 10 * n + (c.toNat - 48)) 0

/-- Number of days in a month, Gregorian rules. -/
def daysInMonth (year month : Nat) : Nat :=
  if month = 2 then
    if (year % 4 = 0 && year % 100 ≠ 0) || year % 400 = 0 then 29 else 28
  else if month = 4 || month = 6 || month = 9 || month = 11 then 30
  else 31

/-- Split a list of characters at every occurrence of the separator; the
separators themselves are dropped and empty pieces are kept, as in Python
`str.split(sep)`. -/
def splitFields (sep : Char) : List Char → List (List Char)
  | [] => [[]]
  | c :: rest =>
    if c = sep then [] :: splitFields sep rest
    else
      match splitFields sep rest with
      | [] => [[c]]
      | f :: fs => (c :: f) :: fs

/-- Model of `pd.to_datetime(s, format="%d.%m.%Y")` on one field: day and
month are 1 or 2 digits, the year exactly 4 digits, separated by literal
dots, and the triple must be a real calendar date; anything else raises,
modelled as `none`. -/
def parseDate (s : String) : Option Date :=
  match splitFields '.' s.toList with
  | [dc, mc, yc] =>
    if (dc.length = 1 || dc.length = 2) && dc.all Char.isDigit
        && (mc.length = 1 || mc.length = 2) && mc.all Char.isDigit
        && yc.length = 4 && yc.all Char.isDigit then
      let d := digitsToNat dc
      let m := digitsToNat mc
      let y := digitsToNat yc
      if 1 ≤ m && m ≤ 12 && 1 ≤ d && d ≤ daysInMonth y m then
        some ⟨y, m, d⟩
      else none
    else none
  | _ => none

/-- Unsigned decimal numeral: digits with an optional dot, at least one
digit overall (`"123"`, `"123."`, `".5"`).  Exponent forms, which the
program's data never uses, are out of the model. -/
def parseUnsigned (l : List Char) : Option Rat :=
  match splitFields '.' l with
  | [ip] =>
    if ip ≠ [] && ip.all Char.isDigit then some (digitsToNat ip : Rat)
    else none
  | [ip, fp] =>
    if (ip ≠ [] || fp ≠ []) && ip.all Char.isDigit && fp.all Char.isDigit then
      some ((digitsToNat ip : Rat) + (digitsToNat fp : Rat) / (10 ^ fp.length : Rat))
    else none
  | _ => none

/-- Signed decimal numeral: optional leading sign, then `parseUnsigned`. -/
def parseSigned (l : List Char) : Option Rat :=
  match l with
  | '-' :: rest => (parseUnsigned rest).map Neg.neg
  | '+' :: rest => parseUnsigned rest
  | _ => parseUnsigned l

/-- Model of `pd.to_numeric(field.replace(",", "."))`: every comma becomes
a period, then the field is read as a signed decimal number. -/
def parseAmount (s : String) : Option Rat :=
  parseSigned (s.toList.map (fun c => if c = ',' then '.' else c))

/-- The blank-transaction-date placeholder: exactly 10 spaces. -/
def tenSpaces : String :=
  String.mk (List.replicate 10 ' ')

/-- One row of the parsed statement table: the four projected columns plus
the derived `category` and `name`. -/
structure Txn where
  due_date : Date
  amount : Rat
  counterparty : String
  date : Date
  category : String
  name : String
deriving DecidableEq, Repr

/-- A default row, used only as the out-of-range value of `List.getD`. -/
def defaultTxn : Txn :=
  ⟨⟨0, 0, 0⟩, 0, "", ⟨0, 0, 0⟩, "", ""⟩

/-- Parse one data row: project columns 0 (due date), 4 (amount),
15 (counterparty), 18 (transaction date); truncate the transaction date to
its first 10 characters and substitute the due-date field when the
truncation is exactly 10 spaces; parse the dates as `%d.%m.%Y` and the
amount as a decimal-comma number; assign category and name from the
counterparty.  A row without a column 18 raises (in pandas, `x[:10]` on the
NaN filler), modelled as `formatError` at the projection.
An empty projected field is modelled as the empty string, where pandas
would yield NaN/NaT (on an empty counterparty field the program would
then raise `TypeError` inside `re.match` once the rule list is
non-empty); no claim exercises that corner. -/
def parseRow (assigner : List (PyRegex × String × String))
    (fields : List String) : Except PyErr Txn :=
  if fields.length < 19 then .error .formatError
  else
    let dueStr := fields.getD 0 ""
    let amtStr := fields.getD 4 ""
    let cp := fields.getD 15 ""
    let dateTrunc := (fields.getD 18 "").take 10
    let dateStr := if dateTrunc = tenSpaces then dueStr else dateTrunc
    match parseDate dateStr, parseDate dueStr, parseAmount amtStr with
    | some date, some due, some amt =>
      match get_category assigner cp, get_name assigner cp with
      | .ok cat, .ok nm => .ok ⟨due, amt, cp, date, cat, nm⟩
      | .error e, _ => .error e
      | .ok _, .error e => .error e
    | _, _, _ => .error .formatError

/-- Parse the data rows in order, aborting on the first failing row. -/
def parseRows (assigner : List (PyRegex × String × String)) :
    List (List String) → Except PyErr (List Txn)
  | [] => .ok []
  | fields :: rest =>
    match parseRow assigner fields with
    | .error e => .error e
    | .ok t =>
      match parseRows assigner rest with
      | .error e => .error e
      | .ok ts => .ok (t :: ts)

/-- Whether a raw statement line is blank: a physical line with no
characters splits at the `;` delimiter into the single empty field.
`read_csv` with its default `skip_blank_lines=True` drops such lines. -/
def isBlankLine (fields : List String) : Bool :=
  fields == [""]

/-- `StatementData._parse`: `pd.read_csv(..., delimiter=";", skiprows=17)`
skips the first 17 physical lines and drops blank lines in the remainder
(default `skip_blank_lines=True`); the first remaining line is consumed
as the header row and must reach column index 18 for
`df.columns[[0, 4, 15, 18]]`; the lines after it become the data rows.
An empty remainder raises pandas `EmptyDataError`. -/
def parseStatement (assigner : List (PyRegex × String × String))
    (lines : List (List String)) : Except PyErr (List Txn) :=
  match (lines.drop 17).filter (fun l => ! isBlankLine l) with
  | [] => .error .emptyDataError
  | header :: dataRows =>
    if header.length < 19 then .error .formatError
    else parseRows assigner dataRows

/-- `StatementData`: the assigner together with the parsed table. -/
structure StatementData where
  category_assigner : List (PyRegex × String × String)
  df : List Txn

/-- `StatementData.__init__`: build the assigner from the rules records,
then parse the statement lines. -/
def StatementData.load (items : List RuleItem) (lines : List (List String)) :
    Except PyErr StatementData :=
  let assigner := from_json items
  (parseStatement assigner lines).map (fun df => ⟨assigner, df⟩)

/-- `StatementData.print_unknown_categories`: the printed projection
(`date`, `amount`, `counterparty`) of the rows whose category is the
sentinel, paired with the state after the call. -/
def print_unknown_categories (s : StatementData) :
    List (Date × Rat × String) × StatementData :=
  ((s.df.filter (fun r => r.category == "unknown category")).map
    (fun r => (r.date, r.amount, r.counterparty)), s)

/-- Add an amount to a category's running total, appending a new group when
the category is not present yet. -/
def addToGroup (acc : List (String × Rat)) (cat : String) (amt : Rat) :
    List (String × Rat) :=
  match acc with
  | [] => [(cat, amt)]
  | (c, s) :: rest =>
    if c = cat then (c, s + amt) :: rest else (c, s) :: addToGroup rest cat amt

/-- Model of `df.groupby(["category"]).sum()` on `(amount, category)`
pairs.  pandas lists the group keys sorted; the model keeps them in first
appearance order, which leaves every per-category total unchanged. -/
def groupbySum (l : List (Rat × String)) : List (String × Rat) :=
  l.foldl (fun acc p => addToGroup acc p.2 p.1) []

/-- Per-category total read off a grouped summary, `0` for an absent
category. -/
def lookupTotal (l : List (String × Rat)) (c : String) : Rat :=
  match l with
  | [] => 0
  | (c', s) :: rest => if c' = c then s else lookupTotal rest c

/-- The aggregation inside `show_expense_pie_chart`, on the copied
`(amount, category)` columns: keep the rows with negative amount, flip
their sign, and total them per category. -/
def expense_summary (dfac : List (Rat × String)) : List (String × Rat) :=
  groupbySum ((dfac.filter (fun p => decide (p.1 < 0))).map
    (fun p => (-p.1, p.2)))

/-- `StatementData.show_expense_pie_chart`: the chart's per-category data,
computed on a copy of the `amount`/`category` columns (pandas Boolean-mask
indexing copies, so the in-place sign flip touches only the copy), paired
with the state after the call. -/
def show_expense_pie_chart (s : StatementData) :
    List (String × Rat) × StatementData :=
  (expense_summary (s.df.map (fun r => (r.amount, r.category))), s)

/-- A report invocation on a `StatementData`. -/
inductive ReportCall where
  | unknowns
  | pieChart

/-- Run one report for its state effect. -/
def runReport (s : StatementData) : ReportCall → StatementData
  | .unknowns => (print_unknown_categories s).2
  | .pieChart => (show_expense_pie_chart s).2

/-- Run a sequence of reports for their state effect. -/
def runReports (ops : List ReportCall) (s : StatementData) : StatementData :=
  ops.foldl runReport s

/-- A concrete statement line with 19 fields: due date at 0, amount at 4,
counterparty at 15, and a blank transaction date (10 spaces and a stray
suffix character, so its first 10 characters are the blank placeholder)
at 18. -/
def sampleRow : List String :=
  ["15.03.2023", "", "", "", "-10,5", "", "", "", "", "", "", "", "", "",
    "", "SHOP", "", "", "          X"]

/-- The parsed form of `sampleRow` under the empty rule list. -/
def sampleTxn : Txn :=
  ⟨⟨2023, 3, 15⟩, -(21/2 : Rat), "SHOP", ⟨2023, 3, 15⟩,
    "unknown category", "unknown name"⟩

/-- A concrete statement file: 17 preamble lines, a 19-column header line,
and one data line. -/
def sampleLines : List (List String) :=
  List.replicate 17 [""] ++ [List.replicate 19 "h", sampleRow]

/-- A concrete statement file whose data line has only 10 columns. -/
def shortRowLines : List (List String) :=
  List.replicate 17 [""] ++ [List.replicate 19 "h", List.replicate 10 "x"]

/-- A concrete statement file with blank lines after the preamble: a
blank line before the header and another between the header and the one
data line. -/
def blankLineSample : List (List String) :=
  List.replicate 17 [""] ++ [[""], List.replicate 19 "h", [""], sampleRow]

/-! ### Characterisation of the rule scan -/

/-- With valid patterns, `get_category` returns the category of the first
matching rule, with the sentinel as default. -/
theorem get_category_eq (rm : List (PyRegex × String × String)) (c : String)
    (h : ∀ r ∈ rm, r.1.isValid = true) :
    get_category rm c
      = .ok (((firstMatch rm c).map (fun r => r.2.2)).getD "unknown category") := by
  induction rm with
  | nil => rfl
  | cons head tail ih =>
    obtain ⟨p, n, cat⟩ := head
    have hp := h (p, n, cat) (List.mem_cons_self _ _)
    cases p with
    | malformed => simp [PyRegex.isValid] at hp
    | compiled r =>
      have htail := ih fun r hr => h r (List.mem_cons_of_mem _ hr)
      have h1 : get_category ((PyRegex.compiled r, n, cat) :: tail) c
          = (match re_match (PyRegex.compiled r) c with
             | .error e => .error e
             | .ok true => .ok cat
             | .ok false => get_category tail c) := rfl
      have h2 : firstMatch ((PyRegex.compiled r, n, cat) :: tail) c
          = (match (match re_match (PyRegex.compiled r) c with
                    | .ok b => b
                    | .error _ => false) with
             | true => some (PyRegex.compiled r, n, cat)
             | false => firstMatch tail c) := rfl
      have hre : re_match (PyRegex.compiled r) c
          = .ok (c.toList.inits.any r.rmatch) := rfl
      rw [h1, h2, hre]
      cases hb : c.toList.inits.any r.rmatch with
      | true => rfl
      | false => exact htail

/-- With valid patterns, `get_name` returns the name of the first matching
rule, with the sentinel as default. -/
theorem get_name_eq (rm : List (PyRegex × String × String)) (c : String)
    (h : ∀ r ∈ rm, r.1.isValid = true) :
    get_name rm c
      = .ok (((firstMatch rm c).map (fun r => r.2.1)).getD "unknown name") := by
  induction rm with
  | nil => rfl
  | cons head tail ih =>
    obtain ⟨p, n, cat⟩ := head
    have hp := h (p, n, cat) (List.mem_cons_self _ _)
    cases p with
    | malformed => simp [PyRegex.isValid] at hp
    | compiled r =>
      have htail := ih fun r hr => h r (List.mem_cons_of_mem _ hr)
      have h1 : get_name ((PyRegex.compiled r, n, cat) :: tail) c
          = (match re_match (PyRegex.compiled r) c with
             | .error e => .error e
             | .ok true => .ok n
             | .ok false => get_name tail c) := rfl
      have h2 : firstMatch ((PyRegex.compiled r, n, cat) :: tail) c
          = (match (match re_match (PyRegex.compiled r) c with
                    | .ok b => b
                    | .error _ => false) with
             | true => some (PyRegex.compiled r, n, cat)
             | false => firstMatch tail c) := rfl
      have hre : re_match (PyRegex.compiled r) c
          = .ok (c.toList.inits.any r.rmatch) := rfl
      rw [h1, h2, hre]
      cases hb : c.toList.inits.any r.rmatch with
      | true => rfl
      | false => exact htail

/-- Claim C1: with valid patterns, `get_category` returns the category of
the first rule in list order whose regex matches the counterparty and
`"unknown category"` when none does, and `get_name` does the same with the
rule's name and `"unknown name"`; when two rules both match, the earlier
one in list order decides for both; with an empty rule list the
counterparty `"ACME CORP"` yields the two sentinel strings. -/
theorem get_category_first_rule_wins :
    (∀ rm c, (∀ r ∈ rm, r.1.isValid = true) →
      get_category rm c
        = .ok (((firstMatch rm c).map (fun r => r.2.2)).getD "unknown category") ∧
      get_name rm c
        = .ok (((firstMatch rm c).map (fun r => r.2.1)).getD "unknown name")) ∧
    (∀ p₁ n₁ c₁ p₂ n₂ c₂ rest cp,
      re_match p₁ cp = .ok true → re_match p₂ cp = .ok true →
      get_category ((p₁, n₁, c₁) :: (p₂, n₂, c₂) :: rest) cp = .ok c₁ ∧
      get_name ((p₁, n₁, c₁) :: (p₂, n₂, c₂) :: rest) cp = .ok n₁) ∧
    (get_category [] "ACME CORP" = .ok "unknown category" ∧
     get_name [] "ACME CORP" = .ok "unknown name") := by
  refine ⟨fun rm c h => ⟨get_category_eq rm c h, get_name_eq rm c h⟩,
    ?_, rfl, rfl⟩
  intro p₁ n₁ c₁ p₂ n₂ c₂ rest cp h₁ h₂
  constructor
  · simp [get_category, h₁]
  · simp [get_name, h₁]

/-- Witness for C1: two rules both match `"ACME"`; the first one decides
the category and the name. -/
theorem get_category_first_rule_wins_witness :
    get_category [(PyRegex.compiled (RegularExpression.char 'A'), "alpha", "catA"),
      (PyRegex.compiled (RegularExpression.char 'A'), "beta", "catB")] "ACME"
      = .ok "catA" ∧
    get_name [(PyRegex.compiled (RegularExpression.char 'A'), "alpha", "catA"),
      (PyRegex.compiled (RegularExpression.char 'A'), "beta", "catB")] "ACME"
      = .ok "alpha" :=
  get_category_first_rule_wins.2.1
    (PyRegex.compiled (RegularExpression.char 'A')) "alpha" "catA"
    (PyRegex.compiled (RegularExpression.char 'A')) "beta" "catB" [] "ACME"
    rfl rfl

/-- Claim C2: a compiled rule pattern matches a counterparty exactly when
it fully matches some prefix of the counterparty starting at position 0;
it need not match the whole string (the single character `B` matches
`"BANK"`), and a match that begins after position 0 does not count (the
single character `A` does not match `"BANK"`). -/
theorem re_match_start_anchored :
    (∀ (r : RegularExpression Char) (s : String),
      re_match (.compiled r) s = .ok true ↔
        ∃ p, p <+: s.toList ∧ p ∈ r.matches') ∧
    re_match (.compiled (RegularExpression.char 'B')) "BANK" = .ok true ∧
    re_match (.compiled (RegularExpression.char 'A')) "BANK" = .ok false := by
  refine ⟨fun r s => ?_, rfl, rfl⟩
  constructor
  · intro h
    have hb : s.toList.inits.any r.rmatch = true := by
      simpa [re_match] using h
    obtain ⟨p, hp, hm⟩ := List.any_eq_true.mp hb
    exact ⟨p, (List.mem_inits p s.toList).mp hp,
      (RegularExpression.rmatch_iff_matches' r p).mp hm⟩
  · rintro ⟨p, hp, hm⟩
    have hb : s.toList.inits.any r.rmatch = true :=
      List.any_eq_true.mpr ⟨p, (List.mem_inits p s.toList).mpr hp,
        (RegularExpression.rmatch_iff_matches' r p).mpr hm⟩
    simpa [re_match] using hb

/-- Witness for C2: the language of `char C` contains the prefix `"C"` of
`"CAFE"`, so the anchored match succeeds on `"CAFE"`. -/
theorem re_match_start_anchored_witness :
    re_match (.compiled (RegularExpression.char 'C')) "CAFE" = .ok true :=
  (re_match_start_anchored.1 (RegularExpression.char 'C') "CAFE").mpr
    ⟨['C'], ⟨['A', 'F', 'E'], rfl⟩,
      (RegularExpression.rmatch_iff_matches' (RegularExpression.char 'C') ['C']).mp rfl⟩

/-- Claim C3: with valid patterns, `get_category` and `get_name` are total
and deterministic: on every counterparty string they return a string and
never raise. -/
theorem matcher_total (rm : List (PyRegex × String × String)) (c : String)
    (h : ∀ r ∈ rm, r.1.isValid = true) :
    (∃ s, get_category rm c = .ok s) ∧ (∃ s, get_name rm c = .ok s) :=
  ⟨⟨_, get_category_eq rm c h⟩, ⟨_, get_name_eq rm c h⟩⟩

/-- Witness for C3: a one-rule map is total on the empty string and on a
string made of regex metacharacters. -/
theorem matcher_total_witness :
    (∀ r ∈ [(PyRegex.compiled (RegularExpression.char 'A'), "n", "c")],
      r.1.isValid = true) ∧
    (∃ s, get_category
      [(PyRegex.compiled (RegularExpression.char 'A'), "n", "c")] "" = .ok s) ∧
    (∃ s, get_name
      [(PyRegex.compiled (RegularExpression.char 'A'), "n", "c")] "(*[" = .ok s) :=
  ⟨by simp [PyRegex.isValid],
    (matcher_total _ "" (by simp [PyRegex.isValid])).1,
    (matcher_total _ "(*[" (by simp [PyRegex.isValid])).2⟩

/-- Claim C10: with valid patterns, `get_category` and `get_name` agree on
which rule fires: when some rule matches, both answers come from the first
matching rule; when none does, both fall through to their sentinels; and
when no rule carries the sentinel strings themselves, `get_category`
returns `"unknown category"` iff `get_name` returns `"unknown name"`. -/
theorem category_name_agreement (rm : List (PyRegex × String × String))
    (c : String) (h : ∀ r ∈ rm, r.1.isValid = true) :
    (match firstMatch rm c with
     | some rule =>
        get_category rm c = .ok rule.2.2 ∧ get_name rm c = .ok rule.2.1
     | none =>
        get_category rm c = .ok "unknown category" ∧
        get_name rm c = .ok "unknown name") ∧
    ((∀ r ∈ rm, r.2.2 ≠ "unknown category" ∧ r.2.1 ≠ "unknown name") →
      (get_category rm c = .ok "unknown category" ↔
        get_name rm c = .ok "unknown name")) := by
  have hc := get_category_eq rm c h
  have hn := get_name_eq rm c h
  constructor
  · cases hm : firstMatch rm c with
    | none =>
      rw [hm] at hc hn
      exact ⟨hc, hn⟩
    | some rule =>
      rw [hm] at hc hn
      exact ⟨hc, hn⟩
  · intro hs
    cases hm : firstMatch rm c with
    | none =>
      rw [hm] at hc hn
      simp only [Option.map_none', Option.getD_none] at hc hn
      simp [hc, hn]
    | some rule =>
      have hmem : rule ∈ rm := List.mem_of_find?_eq_some hm
      rw [hm] at hc hn
      simp only [Option.map_some', Option.getD_some] at hc hn
      constructor
      · intro hcc
        rw [hc] at hcc
        exact absurd (Except.ok.inj hcc) (hs rule hmem).1
      · intro hnn
        rw [hn] at hnn
        exact absurd (Except.ok.inj hnn) (hs rule hmem).2

/-- Witness for C10: a one-rule map that does not match `"ACME"`; the
category sentinel forces the name sentinel. -/
theorem category_name_agreement_witness :
    get_name [(PyRegex.compiled (RegularExpression.char 'Z'), "zn", "zc")] "ACME"
      = .ok "unknown name" :=
  ((category_name_agreement
      [(PyRegex.compiled (RegularExpression.char 'Z'), "zn", "zc")] "ACME"
      (by simp [PyRegex.isValid])).2
    (by simp)).mp rfl

/-- Claim C4 (counterexample): a rules file whose single record carries a
pattern that fails to compile is accepted by `from_json` — construction
succeeds and returns the one-rule assigner — and the regex-compilation
error is instead raised by `get_category`/`get_name` at match time. -/
theorem from_json_accepts_malformed :
    from_json [⟨"n", .malformed, "c"⟩] = [(.malformed, "n", "c")] ∧
    get_category (from_json [⟨"n", .malformed, "c"⟩]) "ACME CORP"
      = .error .reError ∧
    get_name (from_json [⟨"n", .malformed, "c"⟩]) "ACME CORP"
      = .error .reError :=
  ⟨rfl, rfl, rfl⟩

/-- Claim C4 (amended): `from_json` stores the patterns without compiling
them, so construction never fails on a malformed pattern; the
regex-compilation error is raised at match time, when `get_category` or
`get_name` first reaches the malformed rule (non-matching valid rules
before it are passed over). -/
theorem regex_error_at_match_time :
    (∀ items, from_json items
      = items.map (fun it => (it.regex, it.name, it.category))) ∧
    (∀ n cat rest c,
      get_category ((PyRegex.malformed, n, cat) :: rest) c = .error .reError ∧
      get_name ((PyRegex.malformed, n, cat) :: rest) c = .error .reError) ∧
    (∀ p n cat rest c, re_match p c = .ok false →
      get_category ((p, n, cat) :: rest) c = get_category rest c ∧
      get_name ((p, n, cat) :: rest) c = get_name rest c) := by
  refine ⟨fun items => rfl, fun n cat rest c => ⟨rfl, rfl⟩, ?_⟩
  intro p n cat rest c h
  constructor
  · show (match re_match p c with
          | .error e => .error e
          | .ok true => .ok cat
          | .ok false => get_category rest c) = get_category rest c
    rw [h]
  · show (match re_match p c with
          | .error e => .error e
          | .ok true => .ok n
          | .ok false => get_name rest c) = get_name rest c
    rw [h]

/-- Witness for C4 (amended): a map whose first rule is valid but does not
match and whose second pattern is malformed raises `re.error` at match
time. -/
theorem regex_error_at_match_time_witness :
    get_category [(PyRegex.compiled (RegularExpression.char 'Z'), "n0", "c0"),
      (PyRegex.malformed, "n", "c")] "A" = .error .reError :=
  ((regex_error_at_match_time.2.2 (PyRegex.compiled (RegularExpression.char 'Z'))
      "n0" "c0" [(PyRegex.malformed, "n", "c")] "A" rfl).1).trans
    (regex_error_at_match_time.2.1 "n" "c" [] "A").1

/-- Claim C9: reports do not mutate the stored table: running
`print_unknown_categories` leaves the state unchanged and returns the same
projection when called twice; the sign-flipping aggregation inside
`show_expense_pie_chart` works on a copy and leaves the state unchanged;
hence any sequence of report calls preserves the `StatementData`. -/
theorem reports_preserve_table (s : StatementData) (ops : List ReportCall) :
    (print_unknown_categories s).2 = s ∧
    (print_unknown_categories ((print_unknown_categories s).2)).1
      = (print_unknown_categories s).1 ∧
    (show_expense_pie_chart s).2 = s ∧
    runReports ops s = s := by
  refine ⟨rfl, rfl, rfl, ?_⟩
  induction ops with
  | nil => rfl
  | cons op rest ih =>
    have h : runReport s op = s := by cases op <;> rfl
    show (op :: rest).foldl runReport s = s
    rw [List.foldl_cons, h]
    exact ih

/-- Witness for C9: a concrete two-report sequence on a concrete table
returns to the same state. -/
theorem reports_preserve_table_witness :
    runReports [ReportCall.unknowns, ReportCall.pieChart]
      ⟨[], [defaultTxn]⟩ = ⟨[], [defaultTxn]⟩ :=
  (reports_preserve_table ⟨[], [defaultTxn]⟩
    [ReportCall.unknowns, ReportCall.pieChart]).2.2.2

/-! ### Statement parsing -/

/-- A successful `parseRows` run returns one parsed transaction per data
row, in order. -/
theorem parseRows_ok (assigner : List (PyRegex × String × String)) :
    ∀ rows ts, parseRows assigner rows = .ok ts →
      ts.length = rows.length ∧
      ∀ i, i < rows.length →
        parseRow assigner (rows.getD i []) = .ok (ts.getD i defaultTxn) := by
  intro rows
  induction rows with
  | nil =>
    intro ts h
    cases h
    exact ⟨rfl, fun i hi => absurd hi (Nat.not_lt_zero i)⟩
  | cons fields rest ih =>
    intro ts h
    have h' : (match parseRow assigner fields with
        | .error e => .error e
        | .ok t =>
          match parseRows assigner rest with
          | .error e => .error e
          | .ok ts => .ok (t :: ts)) = Except.ok ts := h
    cases hp : parseRow assigner fields with
    | error e => rw [hp] at h'; cases h'
    | ok t =>
      rw [hp] at h'
      cases hr : parseRows assigner rest with
      | error e => rw [hr] at h'; cases h'
      | ok ts' =>
        rw [hr] at h'
        cases h'
        obtain ⟨hlen, hget⟩ := ih ts' hr
        refine ⟨by simp [hlen], ?_⟩
        intro i hi
        cases i with
        | zero => simpa using hp
        | succ j =>
          have hj : j < rest.length := Nat.lt_of_succ_lt_succ hi
          simpa using hget j hj

/-- Claim C5 (counterexample): a file of 17 preamble lines, one header
line and one data line leaves 2 raw lines after skipping the first 17, but
the loaded table has exactly 1 row: the 18th line is consumed as the
field-name row, not turned into a transaction. -/
theorem header_line_consumed :
    (sampleLines.drop 17).length = 2 ∧
    (parseStatement [] sampleLines).map List.length = .ok 1 :=
  ⟨rfl, by with_unfolding_all rfl⟩

/-- Claim C5 (amended): whenever the load succeeds, the non-blank lines
after the first 17 (blank lines are dropped by `skip_blank_lines`)
consist of one header line (consumed as the field-name row) and the data
lines, and the table has exactly one transaction row per non-blank data
line, in the same order as the source file. -/
theorem parse_preserves_row_order :
    ∀ assigner lines t, parseStatement assigner lines = .ok t →
      ∃ header dataRows,
        (lines.drop 17).filter (fun l => ! isBlankLine l)
          = header :: dataRows ∧
        t.length = dataRows.length ∧
        ∀ i, i < dataRows.length →
          parseRow assigner (dataRows.getD i []) = .ok (t.getD i defaultTxn) := by
  intro assigner lines t h
  rw [parseStatement] at h
  cases hd : (lines.drop 17).filter (fun l => ! isBlankLine l) with
  | nil => rw [hd] at h; cases h
  | cons header dataRows =>
    rw [hd] at h
    have h' : (if header.length < 19 then Except.error PyErr.formatError
        else parseRows assigner dataRows) = Except.ok t := h
    by_cases hh : header.length < 19
    · rw [if_pos hh] at h'; cases h'
    · rw [if_neg hh] at h'
      obtain ⟨hlen, hget⟩ := parseRows_ok assigner dataRows t h'
      exact ⟨header, dataRows, rfl, hlen, hget⟩

/-- Witness for C5 (amended): the file with two blank lines after the
preamble parses into a one-row table: 4 raw lines remain after the skip,
the blank ones are dropped, the header is consumed, and the single
non-blank data line gives the single transaction row. -/
theorem parse_preserves_row_order_witness :
    parseStatement [] blankLineSample = .ok [sampleTxn] ∧
    (blankLineSample.drop 17).length = 4 ∧
    ∃ header dataRows,
      (blankLineSample.drop 17).filter (fun l => ! isBlankLine l)
        = header :: dataRows ∧
      ([sampleTxn] : List Txn).length = dataRows.length ∧
      ∀ i, i < dataRows.length →
        parseRow [] (dataRows.getD i []) = .ok ([sampleTxn].getD i defaultTxn) :=
  ⟨by with_unfolding_all rfl, rfl,
    parse_preserves_row_order [] blankLineSample [sampleTxn]
      (by with_unfolding_all rfl)⟩

/-- Claim C6: on every successfully parsed row, the due-date field parses
as `%d.%m.%Y` to the row's due date; when the transaction-date field
truncated to its first 10 characters is exactly the 10-space placeholder,
the row's transaction date is the due date; otherwise the truncated value
itself parses as `%d.%m.%Y` to the row's transaction date. -/
theorem transaction_date_fallback :
    ∀ assigner fields t, parseRow assigner fields = .ok t →
      parseDate (fields.getD 0 "") = some t.due_date ∧
      ((fields.getD 18 "").take 10 = tenSpaces → t.date = t.due_date) ∧
      ((fields.getD 18 "").take 10 ≠ tenSpaces →
        parseDate ((fields.getD 18 "").take 10) = some t.date) := by
  intro assigner fields t h
  unfold parseRow at h
  split at h
  · cases h
  · simp only [] at h
    split at h
    · rename_i date due amt hdate hdue hamt
      split at h
      · cases h
        refine ⟨hdue, ?_, ?_⟩
        · intro hs
          rw [if_pos hs] at hdate
          rw [hdate] at hdue
          exact Option.some.inj hdue
        · intro hs
          rw [if_neg hs] at hdate
          exact hdate
      · cases h
      · cases h
    · cases h

/-- Witness for C6: a row whose transaction-date field starts with the
10-space placeholder and whose due-date field is `"15.03.2023"` parses
with transaction date 2023-03-15, equal to its due date. -/
theorem transaction_date_fallback_witness :
    (sampleRow.getD 18 "").take 10 = tenSpaces ∧
    parseRow [] sampleRow = .ok sampleTxn ∧
    sampleTxn.date = sampleTxn.due_date ∧
    sampleTxn.date = ⟨2023, 3, 15⟩ :=
  ⟨rfl, by with_unfolding_all rfl,
    (transaction_date_fallback [] sampleRow sampleTxn
      (by with_unfolding_all rfl)).2.1 rfl, rfl⟩

/-! ### Expense aggregation -/

/-- Adding one amount to a running grouping changes exactly that
category's total. -/
theorem lookupTotal_addToGroup (acc : List (String × Rat)) (cat : String)
    (amt : Rat) (c : String) :
    lookupTotal (addToGroup acc cat amt) c
      = lookupTotal acc c + (if cat = c then amt else 0) := by
  induction acc with
  | nil =>
    by_cases h : cat = c <;> simp [addToGroup, lookupTotal, h]
  | cons head rest ih =>
    obtain ⟨c', s⟩ := head
    by_cases h1 : c' = cat
    · subst h1
      by_cases h2 : c' = c
      · simp [addToGroup, lookupTotal, h2]
      · simp [addToGroup, lookupTotal, h2]
    · by_cases h2 : c' = c
      · have h3 : ¬ cat = c := fun hc => h1 (h2.trans hc.symm)
        have h4 : ¬ c = cat := fun hc => h3 hc.symm
        simp [addToGroup, lookupTotal, h1, h2, h3, h4]
      · simp [addToGroup, lookupTotal, h1, h2, ih]

/-- Folding rows into a grouping adds, per category, the sum of the
amounts of the rows carrying that category. -/
theorem lookupTotal_groupStep (l : List (Rat × String)) (c : String) :
    ∀ acc, lookupTotal (l.foldl (fun acc p => addToGroup acc p.2 p.1) acc) c
      = lookupTotal acc c
        + ((l.filter (fun p => p.2 == c)).map Prod.fst).sum := by
  induction l with
  | nil => intro acc; simp
  | cons p rest ih =>
    intro acc
    rw [List.foldl_cons, ih, lookupTotal_addToGroup]
    by_cases h : p.2 = c
    · simp only [List.filter_cons, h, beq_self_eq_true, if_pos, List.map_cons,
        List.sum_cons, if_true]
      ring
    · have h' : (p.2 == c) = false := by simp [h]
      simp [List.filter_cons, h, h']

/-- Projecting the per-category amounts out of the filtered, sign-flipped
column copy. -/
theorem expense_filter_map (dfac : List (Rat × String)) (c : String) :
    (((dfac.filter (fun p => decide (p.1 < 0))).map
        (fun p => (-p.1, p.2))).filter (fun p => p.2 == c)).map Prod.fst
      = (dfac.filter (fun p => decide (p.1 < 0) && p.2 == c)).map
          (fun p => -p.1) := by
  induction dfac with
  | nil => rfl
  | cons p rest ih =>
    by_cases h1 : p.1 < 0
    · by_cases h2 : p.2 = c
      · simp [List.filter_cons, h1, h2, ih]
      · simp [List.filter_cons, h1, h2, ih]
    · simp [List.filter_cons, h1, ih]

set_option maxRecDepth 100000 in
/-- Claim C7: the expense summary totals, per category, exactly the
magnitudes of the strictly negative amounts carried by that category;
prepending a row with a non-negative amount leaves the whole summary
unchanged; and the three-row example from the specification yields the
single group `("food", 15)`. -/
theorem expense_summary_totals :
    (∀ dfac c, lookupTotal (expense_summary dfac) c
        = ((dfac.filter (fun p => decide (p.1 < 0) && p.2 == c)).map
            (fun p => -p.1)).sum) ∧
    (∀ dfac a cat, 0 ≤ a →
      expense_summary ((a, cat) :: dfac) = expense_summary dfac) ∧
    expense_summary [(-10, "food"), (-5, "food"), (20, "food")]
      = [("food", 15)] := by
  refine ⟨?_, ?_, by with_unfolding_all decide⟩
  · intro dfac c
    rw [show expense_summary dfac
        = ((dfac.filter (fun p => decide (p.1 < 0))).map
            (fun p => (-p.1, p.2))).foldl
              (fun acc p => addToGroup acc p.2 p.1)
              ([] : List (String × Rat)) from rfl,
      lookupTotal_groupStep, expense_filter_map]
    simp [lookupTotal]
  · intro dfac a cat h
    have hd : decide (a < 0) = false := decide_eq_false (not_lt.mpr h)
    simp [expense_summary, List.filter_cons, hd]

/-- Witness for C7: prepending the non-negative row `(3, "x")` to the
empty table leaves the (empty) summary unchanged. -/
theorem expense_summary_totals_witness :
    (0 : Rat) ≤ 3 ∧ expense_summary [((3 : Rat), "x")] = expense_summary [] :=
  ⟨by norm_num, expense_summary_totals.2.1 [] 3 "x" (by norm_num)⟩

/-! ### Short rows abort the load -/

/-- With valid patterns, the only errors `parseRow` can raise are the
statement-format ones. -/
theorem parseRow_error_kind (assigner : List (PyRegex × String × String))
    (h : ∀ r ∈ assigner, r.1.isValid = true) (fields : List String) (e : PyErr)
    (he : parseRow assigner fields = .error e) : e = .formatError := by
  have hsc := get_category_eq assigner (fields.getD 15 "") h
  have hsn := get_name_eq assigner (fields.getD 15 "") h
  unfold parseRow at he
  split at he
  · injection he with h1
    exact h1.symm
  · simp only [] at he
    split at he
    · split at he
      · cases he
      · simp_all
      · simp_all
    · injection he with h1
      exact h1.symm

/-- A row that fails with `formatError` makes the whole run of
`parseRows` fail with `formatError`, provided the patterns are valid (so
no earlier row can fail differently). -/
theorem parseRows_error_formatError
    (assigner : List (PyRegex × String × String))
    (h : ∀ r ∈ assigner, r.1.isValid = true) :
    ∀ rows row, row ∈ rows → parseRow assigner row = .error .formatError →
      parseRows assigner rows = .error .formatError := by
  intro rows
  induction rows with
  | nil => intro row hm hrow; cases hm
  | cons fields rest ih =>
    intro row hm hrow
    cases hp : parseRow assigner fields with
    | error e =>
      have he := parseRow_error_kind assigner h fields e hp
      subst he
      show (match parseRow assigner fields with
            | .error e => .error e
            | .ok t =>
              match parseRows assigner rest with
              | .error e => .error e
              | .ok ts => .ok (t :: ts)) = Except.error PyErr.formatError
      rw [hp]
    | ok t =>
      have hm' : row ∈ rest := by
        cases hm with
        | head => rw [hrow] at hp; cases hp
        | tail _ hmem => exact hmem
      have hr := ih row hm' hrow
      show (match parseRow assigner fields with
            | .error e => .error e
            | .ok t =>
              match parseRows assigner rest with
              | .error e => .error e
              | .ok ts => .ok (t :: ts)) = Except.error PyErr.formatError
      rw [hp, hr]

/-- Claim C8: with valid patterns, a non-blank statement row (a blank
physical line is not a statement row: `skip_blank_lines` drops it) with
fewer columns than needed to reach zero-based index 18 makes the whole
load fail with the format error — no table, partial or otherwise, is
returned. -/
theorem short_row_aborts_load (assigner : List (PyRegex × String × String))
    (lines : List (List String)) (row : List String)
    (hv : ∀ r ∈ assigner, r.1.isValid = true)
    (hm : row ∈ lines.drop 18) (hnb : isBlankLine row = false)
    (hlen : row.length < 19) :
    parseStatement assigner lines = .error .formatError := by
  have hrow : parseRow assigner row = .error .formatError := by
    unfold parseRow
    rw [if_pos hlen]
  have hm17 : row ∈ lines.drop 17 := by
    have h18 : lines.drop 18 = (lines.drop 17).drop 1 := by
      rw [List.drop_drop]
    rw [h18] at hm
    exact List.drop_subset _ _ hm
  have hmf : row ∈ (lines.drop 17).filter (fun l => ! isBlankLine l) :=
    List.mem_filter.mpr ⟨hm17, by simp [hnb]⟩
  cases hd : (lines.drop 17).filter (fun l => ! isBlankLine l) with
  | nil => rw [hd] at hmf; cases hmf
  | cons header dataRows =>
    rw [hd] at hmf
    show (match (lines.drop 17).filter (fun l => ! isBlankLine l) with
          | [] => Except.error PyErr.emptyDataError
          | header :: dataRows =>
            if header.length < 19 then Except.error PyErr.formatError
            else parseRows assigner dataRows) = Except.error PyErr.formatError
    rw [hd]
    show (if header.length < 19 then Except.error PyErr.formatError
          else parseRows assigner dataRows) = Except.error PyErr.formatError
    cases List.mem_cons.mp hmf with
    | inl hrh =>
      rw [if_pos (hrh ▸ hlen)]
    | inr hmem =>
      by_cases hh : header.length < 19
      · rw [if_pos hh]
      · rw [if_neg hh]
        exact parseRows_error_formatError assigner hv dataRows row hmem hrow

/-- Witness for C8: the concrete file whose (non-blank) data row has 10
columns fails to load with the format error. -/
theorem short_row_aborts_load_witness :
    parseStatement [] shortRowLines = .error .formatError :=
  short_row_aborts_load [] shortRowLines (List.replicate 10 "x")
    (by simp) (by decide) (by decide) (by decide)
